import Mathlib

/-!
Verification of the ComfyUI client library (src/client.ts and its variant copies).

The development shallowly embeds the parts of the client that the claims are
about: the JSON values the WebSocket correlator inspects, the promise state of
the `getResult` wait, the handler registry installed by `connect`, the URL and
header builders, and the response handling of `queuePrompt`.
-/

/-- JSON values as produced by a successful JSON.parse of a text frame. -/
inductive Json where
  | null
  | bool (b : Bool)
  | num (n : Int)
  | str (s : String)
  | arr (elems : List Json)
  | obj (fields : List (String × Json))

/-- Errors that can be thrown inside the message handler of getResult:
a JSON decode failure (JSON.parse throwing on the raw text), a TypeError from
a property access on null/undefined, or an error thrown by getHistory. -/
inductive JsError where
  | decodeError (raw : String)
  | typeError
  | thrown (msg : String)
deriving DecidableEq

/-- First binding of a key in a JS object literal, as property lookup sees it
(`none` is JS undefined). -/
def lookupField (fields : List (String × Json)) (k : String) : Option Json :=
  (fields.find? (fun p => p.1 = k)).map (fun p => p.2)

/-- JS property access `v[k]`: throws TypeError on null, yields the field on an
object, undefined on any other value. -/
def jsGet : Json → String → Except JsError (Option Json)
  | .null, _ => .error .typeError
  | .obj fs, k => .ok (lookupField fs k)
  | _, _ => .ok none

/-- JS truthiness of a property-access result (`none` is undefined, falsy). -/
def jsTruthy : Option Json → Bool
  | none => false
  | some .null => false
  | some (.bool b) => b
  | some (.num n) => n != 0
  | some (.str s) => s != ""
  | some (.arr _) => true
  | some (.obj _) => true

/-- The strict comparison `message.type === "executing"`. -/
def isExecuting : Option Json → Bool
  | some (.str s) => s = "executing"
  | _ => false

/-- The strict comparison of a property value against a string
(`messageData.prompt_id === promptId`). -/
def eqStr : Option Json → String → Bool
  | some (.str s), t => s = t
  | _, _ => false

/-- State of the promise returned by getResult.  Once settled it never changes
again (JS promise semantics). -/
inductive PromiseState where
  | pending
  | resolved (v : Option Json)
  | rejected (e : JsError)

/-- `resolve(v)`: only acts on a pending promise. -/
def resolveP (p : PromiseState) (v : Option Json) : PromiseState :=
  match p with
  | .pending => .resolved v
  | _ => p

/-- `reject(e)`: only acts on a pending promise. -/
def rejectP (p : PromiseState) (e : JsError) : PromiseState :=
  match p with
  | .pending => .rejected e
  | _ => p

/-- A WebSocket frame, classified as the correlator observes it: a binary
frame, a text frame whose JSON.parse throws, or a text frame that parses to a
JSON value. -/
inductive WireMsg where
  | binary
  | malformed (raw : String)
  | json (v : Json)

/-- The history result fetched via getHistory: a JSON object keyed by prompt
id. -/
def HistoryResult := List (String × Json)

/-- State of one getResult wait: whether its onMessage listener is currently
attached to the channel, and the state of its promise. -/
structure WaitState where
  attached : Bool
  promise : PromiseState

/-- The body of the `onMessage` closure of getResult (client.ts lines 468-498),
run on one incoming frame.  `hf` is the outcome of the `getHistory` call the
closure performs on the completion path (an exception from it is caught by the
surrounding try and rejects, leaving the listener attached). -/
def onMessage (pid : String) (hf : Except JsError HistoryResult)
    (s : WaitState) (m : WireMsg) : WaitState :=
  match m with
  | .binary => s
  | .malformed raw => { s with promise := rejectP s.promise (.decodeError raw) }
  | .json v =>
    match jsGet v "type" with
    | .error e => { s with promise := rejectP s.promise e }
    | .ok t =>
      if isExecuting t then
        match jsGet v "data" with
        | .error e => { s with promise := rejectP s.promise e }
        | .ok none => { s with promise := rejectP s.promise .typeError }
        | .ok (some d) =>
          match jsGet d "node" with
          | .error e => { s with promise := rejectP s.promise e }
          | .ok nodeOpt =>
            if jsTruthy nodeOpt then s
            else
              match jsGet d "prompt_id" with
              | .error e => { s with promise := rejectP s.promise e }
              | .ok pidOpt =>
                if eqStr pidOpt pid then
                  match hf with
                  | .error e => { s with promise := rejectP s.promise e }
                  | .ok hr =>
                    { attached := false,
                      promise := resolveP s.promise (lookupField hr pid) }
                else s
      else s

/-- Delivery of one frame to the channel: the listener body runs only while it
is attached. -/
def stepFrame (pid : String) (hf : Except JsError HistoryResult)
    (s : WaitState) (m : WireMsg) : WaitState :=
  if s.attached then onMessage pid hf s m else s

/-- Delivery of a sequence of frames. -/
def runFrames (pid : String) (hf : Except JsError HistoryResult)
    (s : WaitState) (ms : List WireMsg) : WaitState :=
  ms.foldl (stepFrame pid hf) s

/-- Classification of a successfully parsed message by the handler logic:
it either triggers the completion path, is ignored, or throws. -/
inductive MsgClass where
  | completion
  | ignored
  | faulty (e : JsError)
deriving DecidableEq

/-- Which of the three paths a parsed message takes through the handler. -/
def classifyMsg (pid : String) (v : Json) : MsgClass :=
  match jsGet v "type" with
  | .error e => .faulty e
  | .ok t =>
    if isExecuting t then
      match jsGet v "data" with
      | .error e => .faulty e
      | .ok none => .faulty .typeError
      | .ok (some d) =>
        match jsGet d "node" with
        | .error e => .faulty e
        | .ok nodeOpt =>
          if jsTruthy nodeOpt then .ignored
          else
            match jsGet d "prompt_id" with
            | .error e => .faulty e
            | .ok pidOpt => if eqStr pidOpt pid then .completion else .ignored
    else .ignored

theorem onMessage_json (pid : String) (hf : Except JsError HistoryResult)
    (s : WaitState) (v : Json) :
    onMessage pid hf s (.json v) =
      match classifyMsg pid v with
      | .completion =>
        match hf with
        | .error e => { s with promise := rejectP s.promise e }
        | .ok hr =>
          { attached := false, promise := resolveP s.promise (lookupField hr pid) }
      | .ignored => s
      | .faulty e => { s with promise := rejectP s.promise e } := by
  simp only [onMessage, classifyMsg]
  cases h1 : jsGet v "type" with
  | error e => rfl
  | ok t =>
    by_cases ht : isExecuting t
    · simp only [ht, if_true]
      cases h2 : jsGet v "data" with
      | error e => rfl
      | ok dOpt =>
        cases dOpt with
        | none => rfl
        | some d =>
          cases h3 : jsGet d "node" with
          | error e => simp only [h3]
          | ok nodeOpt =>
            simp only [h3]
            by_cases hn : jsTruthy nodeOpt
            · simp [hn]
            · simp only [hn, if_false, Bool.false_eq_true]
              cases h4 : jsGet d "prompt_id" with
              | error e => simp only [h4]
              | ok pidOpt =>
                simp only [h4]
                by_cases hp : eqStr pidOpt pid
                · simp only [hp, if_true]
                · simp [hp]
    · simp [ht]

theorem rejectP_resolved (p : PromiseState) (e : JsError) (v : Option Json)
    (h : rejectP p e = .resolved v) : p = .resolved v := by
  cases p <;> simp_all [rejectP]

theorem resolveP_resolved (p : PromiseState) (w v : Option Json)
    (h : resolveP p w = .resolved v) : (p = .pending ∧ w = v) ∨ p = .resolved v := by
  cases p <;> simp_all [resolveP]

/-- A single frame delivery can leave the promise resolved only if it already
was, or if the frame is a parsed message on the completion path with a
successful history fetch; in the latter case the resulting state is detached
and resolved with the history sub-record of the awaited prompt id. -/
theorem stepFrame_resolved (pid : String) (hf : Except JsError HistoryResult)
    (s : WaitState) (m : WireMsg) (v : Option Json)
    (h : (stepFrame pid hf s m).promise = .resolved v) :
    s.promise = .resolved v ∨
      (s.promise = .pending ∧ s.attached = true ∧
        ∃ w hr, m = .json w ∧ classifyMsg pid w = .completion ∧ hf = .ok hr ∧
          v = lookupField hr pid ∧
          stepFrame pid hf s m = ⟨false, .resolved (lookupField hr pid)⟩) := by
  by_cases ha : s.attached
  · cases m with
    | binary =>
      simp only [stepFrame, ha, if_true, onMessage] at h
      exact Or.inl h
    | malformed raw =>
      simp only [stepFrame, ha, if_true, onMessage] at h
      exact Or.inl (rejectP_resolved _ _ _ h)
    | json w =>
      rw [stepFrame, if_pos ha, onMessage_json] at h
      cases hc : classifyMsg pid w with
      | completion =>
        rw [hc] at h
        cases hok : hf with
        | error e =>
          rw [hok] at h
          exact Or.inl (rejectP_resolved _ _ _ h)
        | ok hr =>
          rw [hok] at h
          simp only at h
          rcases resolveP_resolved _ _ _ h with ⟨hp, hw⟩ | hres
          · refine Or.inr ⟨hp, ha, w, hr, rfl, hc, rfl, hw.symm, ?_⟩
            rw [stepFrame, if_pos ha, onMessage_json, hc]
            simp [hp, resolveP]
          · exact Or.inl hres
      | ignored =>
        rw [hc] at h
        exact Or.inl h
      | faulty e =>
        rw [hc] at h
        exact Or.inl (rejectP_resolved _ _ _ h)
  · simp only [stepFrame, ha, if_false, Bool.false_eq_true] at h
    exact Or.inl h

/-- Once the listener is detached, no sequence of frames changes the wait
state at all. -/
theorem runFrames_detached (pid : String) (hf : Except JsError HistoryResult)
    (s : WaitState) (hA : s.attached = false) (ms : List WireMsg) :
    runFrames pid hf s ms = s := by
  induction ms with
  | nil => rfl
  | cons m ms ih =>
    have hstep : stepFrame pid hf s m = s := by
      simp [stepFrame, hA]
    simp only [runFrames, List.foldl] at ih ⊢
    rw [hstep, ih]

/-- Over a whole frame sequence: the promise ends up resolved only if it
already was, or some frame in the sequence is a parsed completion message for
the awaited prompt id and the history fetch succeeded; the resolution value is
the history sub-record for the prompt id. -/
theorem runFrames_resolved (pid : String) (hf : Except JsError HistoryResult)
    (ms : List WireMsg) (s : WaitState) (v : Option Json)
    (h : (runFrames pid hf s ms).promise = .resolved v) :
    s.promise = .resolved v ∨
      ∃ w hr, WireMsg.json w ∈ ms ∧ classifyMsg pid w = .completion ∧
        hf = .ok hr ∧ v = lookupField hr pid := by
  induction ms generalizing s with
  | nil => exact Or.inl h
  | cons m ms ih =>
    simp only [runFrames, List.foldl] at h
    rcases ih (stepFrame pid hf s m) h with hres | ⟨w, hr, hmem, hcl, hok, hv⟩
    · rcases stepFrame_resolved pid hf s m v hres with h1 | ⟨_, _, w, hr, hm, hcl, hok, hv, _⟩
      · exact Or.inl h1
      · exact Or.inr ⟨w, hr, by rw [hm]; exact List.mem_cons_self _ _, hcl, hok, hv⟩
    · exact Or.inr ⟨w, hr, List.mem_cons_of_mem _ hmem, hcl, hok, hv⟩

/-- The claim-side description of a completion message for prompt id `pid`:
a JSON value of kind "executing" whose payload has an absent/empty (JS-falsy)
node field and whose prompt_id field equals `pid`. -/
def isCompletionFor (pid : String) (v : Json) : Bool :=
  (match jsGet v "type" with
   | .ok t => isExecuting t
   | .error _ => false) &&
  (match jsGet v "data" with
   | .ok (some d) =>
     (match jsGet d "node" with
      | .ok nodeOpt => !jsTruthy nodeOpt
      | .error _ => false) &&
     (match jsGet d "prompt_id" with
      | .ok pidOpt => eqStr pidOpt pid
      | .error _ => false)
   | _ => false)

/-- An "executing" message that still names a current node (job running). -/
def namesRunningNode (v : Json) : Bool :=
  (match jsGet v "type" with
   | .ok t => isExecuting t
   | .error _ => false) &&
  (match jsGet v "data" with
   | .ok (some d) =>
     (match jsGet d "node" with
      | .ok nodeOpt => jsTruthy nodeOpt
      | .error _ => false)
   | _ => false)

/-- An "executing" completion-shaped message naming a different job id. -/
def namesOtherPrompt (pid : String) (v : Json) : Bool :=
  (match jsGet v "type" with
   | .ok t => isExecuting t
   | .error _ => false) &&
  (match jsGet v "data" with
   | .ok (some d) =>
     (match jsGet d "node" with
      | .ok nodeOpt => !jsTruthy nodeOpt
      | .error _ => false) &&
     (match jsGet d "prompt_id" with
      | .ok (some (.str q)) => q != pid
      | _ => false)
   | _ => false)

theorem isCompletionFor_iff (pid : String) (v : Json) :
    isCompletionFor pid v = true ↔ classifyMsg pid v = .completion := by
  simp only [isCompletionFor, classifyMsg]
  cases h1 : jsGet v "type" with
  | error e => simp
  | ok t =>
    by_cases ht : isExecuting t
    · simp only [ht, if_true, Bool.true_and]
      cases h2 : jsGet v "data" with
      | error e => simp
      | ok dOpt =>
        cases dOpt with
        | none => simp
        | some d =>
          cases h3 : jsGet d "node" with
          | error e => simp [h3]
          | ok nodeOpt =>
            simp only [h3]
            by_cases hn : jsTruthy nodeOpt
            · simp [hn]
            · simp only [hn, Bool.not_false, if_false, Bool.false_eq_true, Bool.true_and]
              cases h4 : jsGet d "prompt_id" with
              | error e => simp [h4]
              | ok pidOpt =>
                simp only [h4]
                by_cases hp : eqStr pidOpt pid
                · simp [hp]
                · simp [hp]
    · simp [ht]

theorem namesRunningNode_ignored (pid : String) (v : Json)
    (h : namesRunningNode v = true) : classifyMsg pid v = .ignored := by
  simp only [namesRunningNode] at h
  simp only [classifyMsg]
  cases h1 : jsGet v "type" with
  | error e => rw [h1] at h; simp at h
  | ok t =>
    rw [h1] at h
    by_cases ht : isExecuting t
    · simp only [ht, if_true]
      simp only [ht, Bool.true_and] at h
      cases h2 : jsGet v "data" with
      | error e => rw [h2] at h; simp at h
      | ok dOpt =>
        rw [h2] at h
        cases dOpt with
        | none => simp at h
        | some d =>
          simp only at h
          cases h3 : jsGet d "node" with
          | error e => rw [h3] at h; simp at h
          | ok nodeOpt =>
            rw [h3] at h
            simp only at h
            simp [h3, h]
    · simp [ht]

theorem namesOtherPrompt_ignored (pid : String) (v : Json)
    (h : namesOtherPrompt pid v = true) : classifyMsg pid v = .ignored := by
  simp only [namesOtherPrompt] at h
  simp only [classifyMsg]
  cases h1 : jsGet v "type" with
  | error e => rw [h1] at h; simp at h
  | ok t =>
    rw [h1] at h
    by_cases ht : isExecuting t
    · simp only [ht, if_true]
      simp only [ht, Bool.true_and] at h
      cases h2 : jsGet v "data" with
      | error e => rw [h2] at h; simp at h
      | ok dOpt =>
        rw [h2] at h
        cases dOpt with
        | none => simp at h
        | some d =>
          simp only [Bool.and_eq_true] at h
          obtain ⟨hn, hq⟩ := h
          cases h3 : jsGet d "node" with
          | error e => rw [h3] at hn; simp at hn
          | ok nodeOpt =>
            rw [h3] at hn
            simp only [Bool.not_eq_true'] at hn
            simp only [hn, if_false, Bool.false_eq_true]
            cases h4 : jsGet d "prompt_id" with
            | error e => rw [h4] at hq; simp at hq
            | ok pidOpt =>
              rw [h4] at hq
              match pidOpt, hq with
              | some (.str q), hq =>
                simp only [bne_iff_ne, ne_eq] at hq
                simp [h3, hn, eqStr, hq]
    · simp [ht]

theorem classifyMsg_ignored_step (pid : String) (hf : Except JsError HistoryResult)
    (s : WaitState) (v : Json) (h : classifyMsg pid v = .ignored) :
    stepFrame pid hf s (.json v) = s := by
  by_cases ha : s.attached
  · rw [stepFrame, if_pos ha, onMessage_json, h]
  · rw [stepFrame, if_neg ha]

/-- A sample prompt id, completion message and history result used by the
witnesses below. -/
def samplePid : String := "abc123"

def sampleMsg : Json :=
  .obj [("type", .str "executing"),
        ("data", .obj [("node", .null), ("prompt_id", .str "abc123")])]

def sampleHistory : HistoryResult :=
  [("abc123", .obj [("outputs", .obj [])])]

/-- C1: during a getResult wait, the promise resolves only upon a non-binary
message that JSON-decodes to an "executing" event whose node field is
absent/empty (JS-falsy) and whose prompt_id equals the awaited job id, and then
it resolves with the sub-record for that id extracted from the fetched history
result; such a message with a successful history fetch does resolve; messages
naming other job ids, or "executing" messages that still name a current node,
leave the wait state unchanged (neither resolution nor rejection). -/
theorem getResult_resolution (pid : String) (hf : Except JsError HistoryResult) :
    (∀ ms v, (runFrames pid hf ⟨true, .pending⟩ ms).promise = .resolved v →
        ∃ w hr, WireMsg.json w ∈ ms ∧ isCompletionFor pid w = true ∧
          hf = .ok hr ∧ v = lookupField hr pid)
  ∧ (∀ w hr, isCompletionFor pid w = true → hf = .ok hr →
        stepFrame pid hf ⟨true, .pending⟩ (.json w) =
          ⟨false, .resolved (lookupField hr pid)⟩)
  ∧ (∀ s w, namesRunningNode w = true ∨ namesOtherPrompt pid w = true →
        stepFrame pid hf s (.json w) = s) := by
  refine ⟨?_, ?_, ?_⟩
  · intro ms v h
    rcases runFrames_resolved pid hf ms ⟨true, .pending⟩ v h with h1 | ⟨w, hr, hm, hc, hok, hv⟩
    · cases h1
    · exact ⟨w, hr, hm, (isCompletionFor_iff pid w).mpr hc, hok, hv⟩
  · intro w hr hc hok
    rw [stepFrame, if_pos rfl, onMessage_json, (isCompletionFor_iff pid w).mp hc, hok]
    rfl
  · intro s w h
    rcases h with h | h
    · exact classifyMsg_ignored_step pid hf s w (namesRunningNode_ignored pid w h)
    · exact classifyMsg_ignored_step pid hf s w (namesOtherPrompt_ignored pid w h)

theorem getResult_resolution_witness :
    stepFrame samplePid (.ok sampleHistory) ⟨true, .pending⟩ (.json sampleMsg) =
      ⟨false, .resolved (lookupField sampleHistory samplePid)⟩ :=
  (getResult_resolution samplePid (.ok sampleHistory)).2.1 sampleMsg sampleHistory
    (by decide) rfl

/-- C2: if a frame delivery resolves the promise of a getResult wait, the
resulting state has the listener detached, and every subsequent frame sequence
leaves that state untouched: no later message can re-trigger resolution or
rejection. -/
theorem getResult_detach_after_resolve (pid : String)
    (hf : Except JsError HistoryResult) (s : WaitState) (m : WireMsg)
    (v : Option Json) (hP : s.promise = .pending)
    (h : (stepFrame pid hf s m).promise = .resolved v) :
    (stepFrame pid hf s m).attached = false ∧
    ∀ pid2 hf2 ms, runFrames pid2 hf2 (stepFrame pid hf s m) ms =
      stepFrame pid hf s m := by
  rcases stepFrame_resolved pid hf s m v h with h1 | ⟨_, _, w, hr, hm, hc, hok, hv, hstate⟩
  · rw [hP] at h1; cases h1
  · rw [hstate]
    exact ⟨rfl, fun pid2 hf2 ms => runFrames_detached pid2 hf2 _ rfl ms⟩

theorem getResult_detach_after_resolve_witness :
    (stepFrame samplePid (.ok sampleHistory) ⟨true, .pending⟩ (.json sampleMsg)).attached
        = false ∧
    runFrames samplePid (.ok sampleHistory)
        (stepFrame samplePid (.ok sampleHistory) ⟨true, .pending⟩ (.json sampleMsg))
        [.json sampleMsg, .malformed "oops", .binary] =
      stepFrame samplePid (.ok sampleHistory) ⟨true, .pending⟩ (.json sampleMsg) := by
  have h := getResult_detach_after_resolve samplePid (.ok sampleHistory)
    ⟨true, .pending⟩ (.json sampleMsg) (lookupField sampleHistory samplePid) rfl rfl
  exact ⟨h.1, h.2 samplePid (.ok sampleHistory) [.json sampleMsg, .malformed "oops", .binary]⟩

/-- C3: during a getResult wait, a non-binary frame whose JSON decode fails
immediately rejects the pending promise with the decode error, and the
listener stays attached. -/
theorem getResult_decode_failure_rejects (pid : String)
    (hf : Except JsError HistoryResult) (raw : String) (s : WaitState)
    (hA : s.attached = true) (hP : s.promise = .pending) :
    stepFrame pid hf s (.malformed raw) =
      ⟨true, .rejected (.decodeError raw)⟩ := by
  obtain ⟨a, p⟩ := s
  simp only at hA hP
  subst hA; subst hP
  rfl

theorem getResult_decode_failure_rejects_witness :
    stepFrame samplePid (.ok sampleHistory) ⟨true, .pending⟩ (.malformed "not json") =
      ⟨true, .rejected (.decodeError "not json")⟩ :=
  getResult_decode_failure_rejects samplePid (.ok sampleHistory) "not json"
    ⟨true, .pending⟩ rfl rfl

/-- Result of the synchronous opening part of getResult: whether queuePrompt was
invoked, and the initial state of the completion wait. -/
structure GetResultCall where
  submitted : Bool
  wait : WaitState

/-- The optional-chaining call `this.ws?.on(..)`: the listener is attached
exactly when a channel object is present. -/
def optChainOn : Option Unit → Bool
  | some _ => true
  | none => false

/-- getResult first awaits queuePrompt unconditionally, then creates a pending
promise and attaches its listener through `this.ws?.on`. -/
def getResultStart (ws : Option Unit) : GetResultCall :=
  { submitted := true,
    wait := { attached := optChainOn ws, promise := .pending } }

/-- C10: when getResult runs with no channel open, the job is still submitted
via queuePrompt, the listener attachment is a silent no-op, and the returned
promise never settles: after any sequence of frames the wait state is
unchanged and the promise still pending. -/
theorem getResult_no_socket_never_settles :
    (getResultStart none).submitted = true ∧
    (getResultStart none).wait.attached = false ∧
    (∀ pid hf ms, runFrames pid hf (getResultStart none).wait ms =
        (getResultStart none).wait) ∧
    (∀ pid hf ms,
        (runFrames pid hf (getResultStart none).wait ms).promise = .pending) :=
  ⟨rfl, rfl,
   fun pid hf ms => runFrames_detached pid hf _ rfl ms,
   fun pid hf ms => by rw [runFrames_detached pid hf _ rfl ms]; rfl⟩

/-- Events forwarded to the generic event callback (`this.eventEmitter`). -/
inductive Emitted where
  | message (data : String)

/-- The forwarding message listener bound in connect (client.ts lines
126-133): a binary frame is only logged and dropped; a text frame is forwarded
verbatim (pre-JSON-decode) to the event callback as a "message" event. -/
def transportForward (data : String) (isBinary : Bool) : List Emitted :=
  if isBinary then [] else [.message data]

/-- C4: binary frames are dropped by the transport (nothing reaches the
generic event callback) while text frames are forwarded verbatim as a
"message" event; and during a getResult wait a binary frame leaves the wait
state untouched: it is never parsed and causes no rejection. -/
theorem binary_frames_dropped (data : String) (pid : String)
    (hf : Except JsError HistoryResult) (s : WaitState) :
    transportForward data true = [] ∧
    transportForward data false = [.message data] ∧
    stepFrame pid hf s .binary = s := by
  refine ⟨rfl, rfl, ?_⟩
  by_cases ha : s.attached
  · rw [stepFrame, if_pos ha]; rfl
  · rw [stepFrame, if_neg ha]

/-- The per-event callback registry `this.handlers` (client.ts lines 51-56),
keyed by event name.  Callback references are modelled as Nat identifiers. -/
def Handlers := List (String × List Nat)

/-- The registry as initialised by the constructor. -/
def initHandlers : Handlers :=
  [("open", []), ("close", []), ("error", []), ("message", [])]

/-- `this.handlers[event]` lookup (JS object property access by key). -/
def hLookup : Handlers → String → Option (List Nat)
  | [], _ => none
  | (k, l) :: t, ev => if k = ev then some l else hLookup t ev

/-- Point update of one event key of the registry (the in-place push or
reassignment the code performs on `this.handlers[event]`). -/
def hUpdate : Handlers → String → (List Nat → List Nat) → Handlers
  | [], _, _ => []
  | (k, l) :: t, ev, f =>
    if k = ev then (k, f l) :: hUpdate t ev f else (k, l) :: hUpdate t ev f

/-- The custom `ws.on` (client.ts lines 94-100): pushes the callback onto the
per-event list; an unknown event name only logs an error and changes nothing. -/
def wsOn (h : Handlers) (ev : String) (cb : Nat) : Handlers :=
  match hLookup h ev with
  | some _ => hUpdate h ev (fun l => l ++ [cb])
  | none => h

/-- The custom `ws.off` (client.ts lines 102-108): filters out the exact
callback reference; an unknown event name changes nothing. -/
def wsOff (h : Handlers) (ev : String) (cb : Nat) : Handlers :=
  match hLookup h ev with
  | some _ => hUpdate h ev (List.filter (fun c => c != cb))
  | none => h

theorem hLookup_hUpdate_self (h : Handlers) (ev : String)
    (f : List Nat → List Nat) :
    hLookup (hUpdate h ev f) ev = (hLookup h ev).map f := by
  induction h with
  | nil => rfl
  | cons p t ih =>
    obtain ⟨k, l⟩ := p
    by_cases hp : k = ev
    · simp [hLookup, hUpdate, hp]
    · simp [hLookup, hUpdate, hp, ih]

theorem hLookup_hUpdate_other (h : Handlers) (ev ev2 : String)
    (f : List Nat → List Nat) (hne : ev2 ≠ ev) :
    hLookup (hUpdate h ev f) ev2 = hLookup h ev2 := by
  induction h with
  | nil => rfl
  | cons p t ih =>
    obtain ⟨k, l⟩ := p
    by_cases hp : k = ev
    · subst hp
      have hk2 : ¬(k = ev2) := fun hh => hne hh.symm
      simp [hLookup, hUpdate, hk2, ih]
    · by_cases hk2 : k = ev2
      · subst hk2
        simp [hLookup, hUpdate, hp]
      · simp [hLookup, hUpdate, hp, hk2, ih]

/-- C5: binding via `on` appends to the per-event callback list (previously
bound callbacks stay, in order); unbinding via `off` removes exactly the
callback references equal to the one given, keeping every other callback of
that event; both operations leave every other event category untouched. -/
theorem handlers_on_off (h : Handlers) (ev : String) (l : List Nat) (cb : Nat)
    (hl : hLookup h ev = some l) :
    hLookup (wsOn h ev cb) ev = some (l ++ [cb]) ∧
    hLookup (wsOff h ev cb) ev = some (List.filter (fun c => c != cb) l) ∧
    (∀ ev2, ev2 ≠ ev →
      hLookup (wsOn h ev cb) ev2 = hLookup h ev2 ∧
      hLookup (wsOff h ev cb) ev2 = hLookup h ev2) ∧
    (∀ c, c ∈ l → c ≠ cb → c ∈ List.filter (fun c => c != cb) l) ∧
    cb ∉ List.filter (fun c => c != cb) l := by
  refine ⟨?_, ?_, ?_, ?_, ?_⟩
  · rw [wsOn, hl]
    rw [hLookup_hUpdate_self, hl]
    rfl
  · rw [wsOff, hl]
    rw [hLookup_hUpdate_self, hl]
    rfl
  · intro ev2 hne
    constructor
    · rw [wsOn, hl, hLookup_hUpdate_other h ev ev2 _ hne]
    · rw [wsOff, hl, hLookup_hUpdate_other h ev ev2 _ hne]
  · intro c hc hne
    simp [List.mem_filter, hc, hne]
  · simp [List.mem_filter]

theorem handlers_on_off_witness :
    hLookup (wsOn (wsOn initHandlers "message" 7) "message" 9) "message" =
        some [7, 9] ∧
    hLookup (wsOff (wsOn (wsOn initHandlers "message" 7) "message" 9) "message" 7)
        "message" = some [9] := by
  have h1 := handlers_on_off initHandlers "message" [] 7 rfl
  have h2 := handlers_on_off (wsOn initHandlers "message" 7) "message" [7] 9 h1.1
  have h3 := handlers_on_off (wsOn (wsOn initHandlers "message" 7) "message" 9)
    "message" [7, 9] 7 h2.1
  exact ⟨h2.1, h3.2.1⟩

/-- JS String.prototype.replace with a string pattern: replaces only the first
occurrence of the pattern, and returns the string unchanged when the pattern
does not occur. -/
def replaceFirstList (pat rep : List Char) : List Char → List Char
  | [] => if pat = [] then rep else []
  | c :: cs =>
    if pat.isPrefixOf (c :: cs) then rep ++ (c :: cs).drop pat.length
    else c :: replaceFirstList pat rep cs

/-- `host.replace(pat, rep)` on strings. -/
def replaceFirst (s pat rep : String) : String :=
  String.mk (replaceFirstList pat.data rep.data s.data)

theorem isPrefixOf_append_self (p l : List Char) :
    p.isPrefixOf (p ++ l) = true := by
  induction p with
  | nil => simp [List.isPrefixOf]
  | cons c cs ih => simp [List.isPrefixOf, ih]

theorem drop_len_append (p l : List Char) : (p ++ l).drop p.length = l := by
  induction p with
  | nil => rfl
  | cons c cs ih => simp [ih]

theorem replaceFirstList_at_head (pat rep l : List Char) (h : pat ≠ []) :
    replaceFirstList pat rep (pat ++ l) = rep ++ l := by
  cases pat with
  | nil => exact absurd rfl h
  | cons p ps =>
    have hpre : (p :: ps).isPrefixOf (p :: (ps ++ l)) = true := by
      have h2 := isPrefixOf_append_self (p :: ps) l
      simp only [List.cons_append] at h2
      exact h2
    have hdrop : (p :: (ps ++ l)).drop (p :: ps).length = l := by
      have h2 := drop_len_append (p :: ps) l
      simp only [List.cons_append] at h2
      exact h2
    simp [replaceFirstList, List.append_eq, hpre, hdrop]

/-- The WebSocket URL built by connect (client.ts lines 65-67): first
occurrence of "http" in the host replaced by "ws", then the /ws path with the
clientId query parameter, and a token parameter when the token is truthy. -/
def connectUrl (host clientId : String) (token : Option String) : String :=
  replaceFirst host "http" "ws" ++ "/ws?clientId=" ++ clientId ++
    (match token with
     | some t => if t = "" then "" else "&token=" ++ t
     | none => "")

theorem replaceFirst_http (rest : String) :
    replaceFirst ("http://" ++ rest) "http" "ws" = "ws://" ++ rest := by
  obtain ⟨l⟩ := rest
  show String.mk (replaceFirstList "http".data "ws".data ("http://" ++ String.mk l).data)
      = "ws://" ++ String.mk l
  have h0 : ("http://" ++ String.mk l).data = "http".data ++ ("://".data ++ l) := by
    rw [String.data_append]
    have h1 : "http://".data = "http".data ++ "://".data := by decide
    rw [h1, List.append_assoc]
  rw [h0, replaceFirstList_at_head _ _ _ (by decide)]
  apply congrArg String.mk
  have h2 : "ws".data ++ "://".data = ['w', 's', ':', '/', '/'] := by decide
  rw [← List.append_assoc, h2]

theorem replaceFirst_https (rest : String) :
    replaceFirst ("https://" ++ rest) "http" "ws" = "wss://" ++ rest := by
  obtain ⟨l⟩ := rest
  show String.mk (replaceFirstList "http".data "ws".data ("https://" ++ String.mk l).data)
      = "wss://" ++ String.mk l
  have h0 : ("https://" ++ String.mk l).data = "http".data ++ ("s://".data ++ l) := by
    rw [String.data_append]
    have h1 : "https://".data = "http".data ++ "s://".data := by decide
    rw [h1, List.append_assoc]
  rw [h0, replaceFirstList_at_head _ _ _ (by decide)]
  apply congrArg String.mk
  have h2 : "ws".data ++ "s://".data = ['w', 's', 's', ':', '/', '/'] := by decide
  rw [← List.append_assoc, h2]

/-- C6: connect builds the socket URL from the base address by swapping the
HTTP scheme for the corresponding socket scheme (http to ws, https to wss) and
appending the client identifier as a clientId query parameter, plus a token
parameter exactly when a (truthy) bearer token is present. -/
theorem connect_url_form (rest clientId t : String) (ht : t ≠ "") :
    connectUrl ("http://" ++ rest) clientId none =
        "ws://" ++ rest ++ "/ws?clientId=" ++ clientId ∧
    connectUrl ("https://" ++ rest) clientId none =
        "wss://" ++ rest ++ "/ws?clientId=" ++ clientId ∧
    connectUrl ("http://" ++ rest) clientId (some t) =
        "ws://" ++ rest ++ "/ws?clientId=" ++ clientId ++ ("&token=" ++ t) ∧
    connectUrl ("https://" ++ rest) clientId (some t) =
        "wss://" ++ rest ++ "/ws?clientId=" ++ clientId ++ ("&token=" ++ t) := by
  refine ⟨?_, ?_, ?_, ?_⟩ <;>
    simp [connectUrl, replaceFirst_http, replaceFirst_https, ht,
      String.append_assoc]

theorem connect_url_form_witness :
    connectUrl ("http://" ++ "example.com:8188") "client1" (some "tok") =
      "ws://" ++ "example.com:8188" ++ "/ws?clientId=" ++ "client1" ++
        ("&token=" ++ "tok") :=
  (connect_url_form "example.com:8188" "client1" "tok" (by decide)).2.2.1

/-- Connection state of the client: the optional channel reference `this.ws`. -/
structure ClientConn where
  ws : Option Unit

/-- Operations performed on the underlying channel object. -/
inductive WsAction where
  | close
deriving DecidableEq

/-- disconnect (client.ts lines 137-142): when a channel reference is set,
close it and clear the reference; otherwise do nothing.  The second component
records the channel operations performed by the call. -/
def disconnect (c : ClientConn) : ClientConn × List WsAction :=
  match c.ws with
  | some _ => ({ ws := none }, [.close])
  | none => (c, [])

/-- C7: disconnect closes the channel and clears the stored reference when one
is open and is a no-op otherwise; a second disconnect right after a first one
finds no reference, performs no channel operation, and (being a total
function of the model) raises nothing: disconnect is idempotent. -/
theorem disconnect_idempotent (c : ClientConn) :
    ((disconnect c).1).ws = none ∧
    disconnect ((disconnect c).1) = ((disconnect c).1, []) ∧
    disconnect { ws := some () } = ({ ws := none }, [.close]) ∧
    disconnect { ws := none } = ({ ws := none }, []) := by
  obtain ⟨w⟩ := c
  cases w with
  | none => exact ⟨rfl, rfl, rfl, rfl⟩
  | some u => cases u; exact ⟨rfl, rfl, rfl, rfl⟩

-- JSON.stringify and its helpers for arrays and objects.
mutual

/-- JSON.stringify (string escaping elided: keys and string values are placed
between plain quotes). -/
def stringify : Json → String
  | .null => "null"
  | .bool b => if b then "true" else "false"
  | .num n => toString n
  | .str s => "\"" ++ s ++ "\""
  | .arr es => "[" ++ stringifyElems es ++ "]"
  | .obj fs => "\x7b" ++ stringifyFields fs ++ "\x7d"

def stringifyElems : List Json → String
  | [] => ""
  | [e] => stringify e
  | e :: es => stringify e ++ "," ++ stringifyElems es

def stringifyFields : List (String × Json) → String
  | [] => ""
  | [(k, v)] => "\"" ++ k ++ "\":" ++ stringify v
  | (k, v) :: fs => "\"" ++ k ++ "\":" ++ stringify v ++ "," ++ stringifyFields fs

end

/-- The JS check `"error" in json`: key membership on an object, index/key
membership on an array (never the key "error"), TypeError on a primitive. -/
def inOp : Json → String → Except JsError Bool
  | .obj fs, k => .ok (fs.any (fun p => p.1 = k))
  | .arr _, _ => .ok false
  | _, _ => .error .typeError

/-- queuePrompt response handling (client.ts lines 184-190): the decoded body
is returned unless it contains an "error" field, in which case an Error
carrying the serialized body is thrown. -/
def queuePromptResult (body : Json) : Except JsError Json :=
  match inOp body "error" with
  | .error e => .error e
  | .ok true => .error (.thrown (stringify body))
  | .ok false => .ok body

/-- C8: queuePrompt returns the decoded response body iff the body carries no
"error" field; a body with an "error" field makes it throw a failure carrying
the serialized error body instead of returning a result. -/
theorem queuePrompt_error_check (body : Json) :
    (inOp body "error" = .ok true →
        queuePromptResult body = .error (.thrown (stringify body))) ∧
    (inOp body "error" = .ok false → queuePromptResult body = .ok body) ∧
    (∀ v, queuePromptResult body = .ok v →
        v = body ∧ inOp body "error" = .ok false) := by
  refine ⟨?_, ?_, ?_⟩
  · intro h; simp [queuePromptResult, h]
  · intro h; simp [queuePromptResult, h]
  · intro v hv
    cases h : inOp body "error" with
    | error e => rw [queuePromptResult, h] at hv; cases hv
    | ok b =>
      cases b with
      | true => rw [queuePromptResult, h] at hv; cases hv
      | false =>
        rw [queuePromptResult, h] at hv
        injection hv with hbv
        subst hbv
        exact ⟨rfl, rfl⟩

theorem queuePrompt_error_check_witness :
    queuePromptResult (.obj [("error", .str "node missing")]) =
        .error (.thrown (stringify (.obj [("error", .str "node missing")]))) ∧
    queuePromptResult (.obj [("prompt_id", .str "abc123")]) =
        .ok (.obj [("prompt_id", .str "abc123")]) :=
  ⟨(queuePrompt_error_check (.obj [("error", .str "node missing")])).1 rfl,
   (queuePrompt_error_check (.obj [("prompt_id", .str "abc123")])).2.1 rfl⟩

/-- getRequestHeaders (client.ts lines 538-546): the Authorization header is
added exactly when the token is truthy. -/
def getRequestHeaders : Option String → List (String × String)
  | some t => if t = "" then [] else [("Authorization", "Bearer " ++ t)]
  | none => []

/-- The REST calls issued by the client in src/client.ts. -/
inductive RestCall where
  | getEmbeddings
  | getExtensions
  | queuePrompt
  | interrupt
  | editHistory
  | uploadImage
  | uploadMask
  | getImage
  | viewMetadata
  | getSystemStats
  | getPrompt
  | getObjectInfo
  | getHistory
  | getQueue
  | deleteQueue
deriving DecidableEq

/-- The headers each REST call of src/client.ts passes to fetch: the four JSON
POST endpoints spread Accept and Content-Type before getRequestHeaders; every
other call passes getRequestHeaders alone. -/
def requestHeaders (token : Option String) : RestCall → List (String × String)
  | .queuePrompt =>
    [("Accept", "application/json"), ("Content-Type", "application/json")] ++
      getRequestHeaders token
  | .interrupt =>
    [("Accept", "application/json"), ("Content-Type", "application/json")] ++
      getRequestHeaders token
  | .editHistory =>
    [("Accept", "application/json"), ("Content-Type", "application/json")] ++
      getRequestHeaders token
  | .deleteQueue =>
    [("Accept", "application/json"), ("Content-Type", "application/json")] ++
      getRequestHeaders token
  | _ => getRequestHeaders token

/-- The private fetch helper of the tokened variant client
(src/unnamed/part_000 lines 522-543): merges the caller-supplied headers with
the Authorization header when a token is set. -/
def variantFetchHeaders (token : Option String)
    (optHeaders : List (String × String)) : List (String × String) :=
  optHeaders ++ getRequestHeaders token

/-- getHistory of the tokened variant client (src/unnamed/part_000 lines
368-373): it bypasses the private fetch helper and calls the global fetch with
only a method option, so its request carries no headers at all, whatever the
token. -/
def variantGetHistoryHeaders (_token : Option String) :
    List (String × String) :=
  []

/-- C9: in src/client.ts every REST call carries the Authorization bearer
header when a token is set, and so does every call routed through the private
fetch helper of the variant client; but getHistory of the variant client
issues its request with no headers, omitting the Authorization header even
though its token is set — the code point the claim cites contradicts the
claim. -/
theorem auth_header_on_rest_calls :
    (∀ c : RestCall, ("Authorization", "Bearer " ++ "secret") ∈
        requestHeaders (some "secret") c) ∧
    (∀ hs, ("Authorization", "Bearer " ++ "secret") ∈
        variantFetchHeaders (some "secret") hs) ∧
    ("Authorization", "Bearer " ++ "secret") ∉
        variantGetHistoryHeaders (some "secret") := by
  refine ⟨?_, ?_, ?_⟩
  · intro c
    cases c <;> decide
  · intro hs
    have hmem : ("Authorization", "Bearer " ++ "secret") ∈
        getRequestHeaders (some "secret") := by decide
    exact List.mem_append_right hs hmem
  · decide
